import Mathlib

/-!
# Relay gateway — verification of the request-processing engine

Shallow embedding of the Relay reverse proxy / API gateway (Go sources under
`pkg/middleware`, `pkg/proxy`, `pkg/config`, `cmd/main.go`) together with
proofs checking the natural-language specification against the code.

Conventions:
* Go `float64` rate values are modelled as `ℚ` (the spec treats `rps` as a
  rational number); `time.Duration` values are modelled as integer
  nanoseconds; machine integers are modelled as `Nat`/`Int`.
* Each middleware is embedded as a pure function from its inputs (request
  data, live configuration snapshot, outcome of external calls) to an
  explicit decision/outcome value.  External collaborators (the shared
  store, the upstream origin, `rand`) enter as explicit parameters.
-/

namespace Relay

/-! ## Rate limiter — `pkg/middleware/ratelimit.go`

`NewRateLimiter` builds one of two handlers.  Both read the live snapshot
(`cfgStore.Get()`) on every request; we pass that snapshot in as
`Option RateLimitConfig` (`none` models `cfg == nil`). -/

/-- The `ratelimit` section of the configuration snapshot
(`config.RateLimitConfig`): `Enabled`, `RPS float64`, `Burst int`. -/
structure RateLimitConfig where
  enabled : Bool
  rps : ℚ
  burst : Int
deriving DecidableEq

/-- `redis_rate.Limit`: rate per period, burst, period (seconds). -/
structure RLimit where
  rate : Int
  burst : Int
  period : Int
deriving DecidableEq

/-- `buildLimit` from ratelimit.go: `none` models the `ok == false` return for
`rps <= 0`; otherwise period defaults to 1 s with rate `⌈rps⌉` and is
overridden to `⌈1/rps⌉` s with rate 1 when `0 < rps < 1`; burst below 1 is
raised to 1. -/
def buildLimit (rps : ℚ) (burst : Int) : Option RLimit :=
  if rps ≤ 0 then none
  else if 0 < rps ∧ rps < 1 then
    some { rate := 1, burst := if burst < 1 then 1 else burst, period := ⌈1 / rps⌉ }
  else
    some { rate := ⌈rps⌉, burst := if burst < 1 then 1 else burst, period := 1 }

/-- Result of `redisLimiter.Allow(ctx, key, limit)`: either a result with
`Allowed` count and `RetryAfter` duration (nanoseconds), or a store error. -/
inductive AllowOutcome where
  | ok (allowed : Nat) (retryAfter : Int)
  | storeError
deriving DecidableEq

/-- What the rate-limiting handler does with a request: `pass` means the
inner handler (`next.ServeHTTP`) is invoked; `reject h` means the handler
short-circuits with `http.Error(..., 429)`, setting a `Retry-After: h`
header first when `h = some seconds`. -/
inductive RLDecision where
  | pass
  | reject (retryAfterHeader : Option Int)
deriving DecidableEq

/-- The HTTP status written by a rate-limit decision (`none` = the inner
handler decides; `http.StatusTooManyRequests = 429` on reject). -/
def decisionStatus : RLDecision → Option Nat
  | .pass => none
  | .reject _ => some 429

/-- `time.Second` in nanoseconds. -/
def nsPerSecond : Int := 1000000000

/-- The distributed (Redis-backed) branch of `NewRateLimiter`: disabled or
missing config passes through; `buildLimit` failure (rps ≤ 0) rejects; a
store error fails open; `Allowed == 0` rejects with
`Retry-After = RetryAfter/1s`, incremented when the division has a
remainder, and only when `RetryAfter > 0`. -/
def distributedRateLimiter (cfg : Option RateLimitConfig) (allow : AllowOutcome) :
    RLDecision :=
  match cfg with
  | none => .pass
  | some c =>
    if !c.enabled then .pass
    else
      match buildLimit c.rps c.burst with
      | none => .reject none
      | some _ =>
        match allow with
        | .storeError => .pass
        | .ok allowed retryAfter =>
          if allowed = 0 then
            if retryAfter > 0 then
              let s := retryAfter / nsPerSecond
              let s := if retryAfter % nsPerSecond ≠ 0 then s + 1 else s
              .reject (some s)
            else .reject none
          else .pass

/-- The in-memory branch of `NewRateLimiter` (`rdb == nil`): disabled or
missing config passes through; `RPS <= 0` rejects outright; otherwise the
process-wide `rate.Limiter` (external, `golang.org/x/time/rate`) decides —
its `Allow()` result is the `allow` parameter.  A deny carries no
`Retry-After` header. -/
def inMemoryRateLimiter (cfg : Option RateLimitConfig) (allow : Bool) : RLDecision :=
  match cfg with
  | none => .pass
  | some c =>
    if !c.enabled then .pass
    else if c.rps ≤ 0 then .reject none
    else if !allow then .reject none
    else .pass

/-! ### Claims C6, C7, C10 -/

/-- Helper: the code's `q + (1 if remainder)` computation is the ceiling of
`ra / ns` for positive `ra` and positive `ns`. -/
theorem ediv_round_up_eq_ceil (ra ns : Int) (hns : 0 < ns) :
    (if ra % ns ≠ 0 then ra / ns + 1 else ra / ns) = ⌈(ra : ℚ) / (ns : ℚ)⌉ := by
  have hdiv : ns * (ra / ns) + ra % ns = ra := Int.ediv_add_emod ra ns
  have hmod0 : 0 ≤ ra % ns := Int.emod_nonneg ra (by omega)
  have hmodlt : ra % ns < ns := Int.emod_lt_of_pos ra hns
  have hnsQ : (0 : ℚ) < (ns : ℚ) := by exact_mod_cast hns
  by_cases hz : ra % ns = 0
  · rw [if_neg (by simp [hz])]
    have hra' : ra = ns * (ra / ns) := by omega
    have hcast : (ra : ℚ) = (ns : ℚ) * ((ra / ns : Int) : ℚ) := by exact_mod_cast hra'
    rw [hcast, mul_div_cancel_left₀ _ (ne_of_gt hnsQ), Int.ceil_intCast]
  · rw [if_pos hz]
    symm
    rw [Int.ceil_eq_iff]
    refine ⟨?_, ?_⟩
    · have hr : 0 < ra % ns := lt_of_le_of_ne hmod0 (Ne.symm hz)
      have hcomm : (ra / ns) * ns = ns * (ra / ns) := mul_comm _ _
      have h1 : (ra / ns) * ns < ra := by linarith [hdiv, hcomm, hr]
      have hsub : ((ra / ns + 1 : Int) : ℚ) - 1 = ((ra / ns : Int) : ℚ) := by
        push_cast; ring
      rw [hsub, lt_div_iff₀ hnsQ]
      exact_mod_cast h1
    · have hexp : (ra / ns + 1) * ns = ns * (ra / ns) + ns := by ring
      have h2 : ra ≤ (ra / ns + 1) * ns := by linarith [hdiv, hmodlt, hexp]
      rw [div_le_iff₀ hnsQ]
      exact_mod_cast h2

/-- C7: for every `rps > 0` and every `burst`, `buildLimit` yields a limit
with: period 1 s and rate `⌈rps⌉` when `rps ≥ 1`; period `⌈1/rps⌉` s and
rate 1 when `0 < rps < 1`; and an effective burst of at least 1, with burst
values below 1 raised to exactly 1 and others kept. -/
theorem buildLimit_spec (rps : ℚ) (burst : Int) (h : 0 < rps) :
    ∃ l, buildLimit rps burst = some l ∧ 1 ≤ l.burst ∧
      (1 ≤ rps → l.period = 1 ∧ l.rate = ⌈rps⌉) ∧
      (rps < 1 → l.period = ⌈1 / rps⌉ ∧ l.rate = 1) ∧
      (burst < 1 → l.burst = 1) ∧ (1 ≤ burst → l.burst = burst) := by
  have hb : 1 ≤ (if burst < 1 then 1 else burst) := by
    by_cases hb' : burst < 1
    · simp [hb']
    · rw [if_neg hb']; omega
  unfold buildLimit
  rw [if_neg (not_le.mpr h)]
  by_cases h1 : rps < 1
  · rw [if_pos ⟨h, h1⟩]
    refine ⟨_, rfl, hb, fun hcon => absurd h1 (not_lt.mpr hcon),
      fun _ => ⟨rfl, rfl⟩, ?_, ?_⟩
    · intro hlt; simp [hlt]
    · intro hge; rw [if_neg (by omega)]
  · rw [if_neg (fun hc => h1 hc.2)]
    refine ⟨_, rfl, hb, fun _ => ⟨rfl, rfl⟩, fun hcon => absurd hcon h1, ?_, ?_⟩
    · intro hlt; simp [hlt]
    · intro hge; rw [if_neg (by omega)]

/-- Witness for C7 at `rps = 1/2`, `burst = 0`. -/
theorem buildLimit_spec_witness :
    ∃ l, buildLimit (1/2 : ℚ) 0 = some l ∧ 1 ≤ l.burst ∧
      (1 ≤ (1/2 : ℚ) → l.period = 1 ∧ l.rate = ⌈(1/2 : ℚ)⌉) ∧
      ((1/2 : ℚ) < 1 → l.period = ⌈1 / (1/2 : ℚ)⌉ ∧ l.rate = 1) ∧
      ((0 : Int) < 1 → l.burst = 1) ∧ (1 ≤ (0 : Int) → l.burst = 0) :=
  buildLimit_spec (1/2) 0 (by norm_num)

/-- C6: under the distributed backend with the limiter enabled and a valid
limit, `Allowed == 0` yields a 429 whose `Retry-After` header is the retry
hint in seconds rounded up (`⌈retry_after / 1s⌉`) when the hint is positive
and is absent otherwise, while a shared-store error admits the request to
the inner handler (fail open). -/
theorem distributedRateLimiter_spec (c : RateLimitConfig) (l : RLimit) (ra : Int)
    (hen : c.enabled = true) (hlim : buildLimit c.rps c.burst = some l) :
    distributedRateLimiter (some c) .storeError = .pass ∧
    (0 < ra →
      distributedRateLimiter (some c) (.ok 0 ra) =
        .reject (some ⌈(ra : ℚ) / (nsPerSecond : ℚ)⌉) ∧
      decisionStatus (distributedRateLimiter (some c) (.ok 0 ra)) = some 429) ∧
    (ra ≤ 0 → distributedRateLimiter (some c) (.ok 0 ra) = .reject none) := by
  refine ⟨by simp [distributedRateLimiter, hen, hlim], ?_, ?_⟩
  · intro hra
    have hcal := ediv_round_up_eq_ceil ra nsPerSecond (by norm_num [nsPerSecond])
    have heval : distributedRateLimiter (some c) (.ok 0 ra) =
        .reject (some ⌈(ra : ℚ) / (nsPerSecond : ℚ)⌉) := by
      simp [distributedRateLimiter, hen, hlim, hra, ← hcal]
    rw [heval]
    exact ⟨rfl, rfl⟩
  · intro hra
    simp [distributedRateLimiter, hen, hlim, show ¬ ra > 0 from not_lt.mpr hra]

/-- Witness for C6 at `rps = 2`, `burst = 5`, retry hint 1.5 s
(`⌈1.5 s⌉ = 2 s`). -/
theorem distributedRateLimiter_spec_witness :
    distributedRateLimiter (some ⟨true, 2, 5⟩) .storeError = .pass ∧
    distributedRateLimiter (some ⟨true, 2, 5⟩) (.ok 0 1500000000) =
      .reject (some ⌈(1500000000 : ℚ) / (nsPerSecond : ℚ)⌉) :=
  ⟨(distributedRateLimiter_spec ⟨true, 2, 5⟩ ⟨2, 5, 1⟩ 0 rfl (by decide)).1,
   ((distributedRateLimiter_spec ⟨true, 2, 5⟩ ⟨2, 5, 1⟩ 1500000000 rfl
      (by decide)).2.1 (by norm_num)).1⟩

/-- C10: if rate limiting is enabled in the live snapshot but the configured
`rps` is ≤ 0, both backends reject every request with status 429 before the
inner handler runs (a `.reject` decision short-circuits; `.pass` is the only
decision that invokes the inner handler). -/
theorem rps_nonpositive_rejects (c : RateLimitConfig) (b : Bool) (allow : AllowOutcome)
    (hen : c.enabled = true) (hrps : c.rps ≤ 0) :
    inMemoryRateLimiter (some c) b = .reject none ∧
    distributedRateLimiter (some c) allow = .reject none ∧
    decisionStatus (inMemoryRateLimiter (some c) b) = some 429 ∧
    decisionStatus (distributedRateLimiter (some c) allow) = some 429 := by
  have hbl : buildLimit c.rps c.burst = none := by
    unfold buildLimit; rw [if_pos hrps]
  have hmem : inMemoryRateLimiter (some c) b = .reject none := by
    simp [inMemoryRateLimiter, hen, hrps]
  have hdist : distributedRateLimiter (some c) allow = .reject none := by
    simp [distributedRateLimiter, hen, hbl]
  exact ⟨hmem, hdist, by rw [hmem]; rfl, by rw [hdist]; rfl⟩

/-- Witness for C10 at `enabled = true`, `rps = 0`, `burst = 3`. -/
theorem rps_nonpositive_rejects_witness :
    inMemoryRateLimiter (some ⟨true, 0, 3⟩) true = .reject none ∧
    distributedRateLimiter (some ⟨true, 0, 3⟩) (.ok 5 0) = .reject none :=
  ⟨(rps_nonpositive_rejects ⟨true, 0, 3⟩ true (.ok 5 0) rfl le_rfl).1,
   (rps_nonpositive_rejects ⟨true, 0, 3⟩ true (.ok 5 0) rfl le_rfl).2.1⟩

/-! ## Single-target dispatcher — `Relay.ServeHTTP` (pkg/proxy, breaker
variant)

The circuit breaker is `sony/gobreaker` (external): `State()` is one of
CLOSED, HALF-OPEN, OPEN; `Execute(fn)` returns `ErrOpenState` without
running `fn` when the breaker is open, `ErrTooManyRequests` without running
`fn` when it is half-open and the probe budget is exhausted, and otherwise
runs `fn`, counting a non-nil returned error as a breaker failure.

The proxied upstream call is modelled by what it does to the
`statusRecorder`: the status it writes and whether it wrote at all
(`rec.status` starts at 200 and `rec.wrote` at false). -/

/-- `gobreaker` state. -/
inductive BreakerState where
  | closed
  | halfOpen
  | stateOpen
deriving DecidableEq

/-- Effect of `g.proxy.ServeHTTP(rec, r)` on the status recorder: the status
code it establishes and whether it wrote anything (header or body).  A
transport error surfaces here too: the proxy's `ErrorHandler` writes 502. -/
structure UpstreamWrite where
  status : Nat
  wrote : Bool
deriving DecidableEq

/-- Observable outcome of one `Relay.ServeHTTP` call:
`clientStatus` — final status on the wire; `forwarded` — whether the proxy
was invoked; `breakerFailure` — whether the breaker recorded a failure
(`Execute`'s callback returned a non-nil error); `rewritten` — whether the
handler wrote a second response after the proxy already wrote one. -/
structure RelayResult where
  clientStatus : Nat
  forwarded : Bool
  breakerFailure : Bool
  rewritten : Bool
deriving DecidableEq

/-- `classifyStatus` from the single-target dispatcher: upstream 5xx is a
breaker failure (`true` models a non-nil error). -/
def classifyStatus (status : Nat) : Bool := 500 ≤ status

/-- `Relay.ServeHTTP` (breaker non-nil): open breaker at entry → 503
without forwarding; `Execute` returning `ErrOpenState`/`ErrTooManyRequests`
(modelled by `tooMany` for the half-open probe budget) → 503 without
running the forward; otherwise the forward runs under the breaker,
`classifyStatus(rec.status)` decides failure, and on failure the 502
rewrite happens only if the proxy wrote nothing (`rec.wrote = false`). -/
def relayServeHTTP (st : BreakerState) (tooMany : Bool) (up : UpstreamWrite) :
    RelayResult :=
  if st = .stateOpen then
    { clientStatus := 503, forwarded := false, breakerFailure := false,
      rewritten := false }
  else if st = .halfOpen ∧ tooMany then
    { clientStatus := 503, forwarded := false, breakerFailure := false,
      rewritten := false }
  else
    let recStatus := if up.wrote then up.status else 200
    if classifyStatus recStatus then
      if up.wrote then
        { clientStatus := up.status, forwarded := true, breakerFailure := true,
          rewritten := false }
      else
        { clientStatus := 502, forwarded := true, breakerFailure := true,
          rewritten := true }
    else
      { clientStatus := recStatus, forwarded := true, breakerFailure := false,
        rewritten := false }

/-- C2: single-target dispatch — OPEN at entry gives 503 without
forwarding; a forwarded response has a breaker failure exactly when the
recorded status is ≥ 500; `ErrTooManyRequests` (half-open, budget
exhausted) gives 503 without forwarding; and when the proxy already wrote,
the response is never rewritten. -/
theorem relayServeHTTP_spec (st : BreakerState) (tm : Bool) (up : UpstreamWrite) :
    (st = .stateOpen →
      relayServeHTTP st tm up =
        { clientStatus := 503, forwarded := false, breakerFailure := false,
          rewritten := false }) ∧
    ((relayServeHTTP st tm up).forwarded = true →
      (relayServeHTTP st tm up).breakerFailure =
        classifyStatus (if up.wrote then up.status else 200)) ∧
    (st = .halfOpen → tm = true →
      (relayServeHTTP st tm up).clientStatus = 503 ∧
      (relayServeHTTP st tm up).forwarded = false) ∧
    (up.wrote = true → (relayServeHTTP st tm up).rewritten = false) := by
  refine ⟨?_, ?_, ?_, ?_⟩
  · intro h; simp [relayServeHTTP, h]
  · intro _
    cases st <;> cases tm <;>
      by_cases hw : up.wrote = true <;>
      by_cases hc : classifyStatus (if up.wrote then up.status else 200) = true <;>
      simp_all [relayServeHTTP]
  · intro h1 h2; subst h1; subst h2; simp [relayServeHTTP]
  · intro hw
    cases st <;> cases tm <;>
      by_cases hc : classifyStatus up.status = true <;>
      simp_all [relayServeHTTP]

/-- Witness for C2: open breaker, and a forwarded 500 counting as a
failure. -/
theorem relayServeHTTP_spec_witness :
    relayServeHTTP .stateOpen false ⟨200, false⟩ =
      { clientStatus := 503, forwarded := false, breakerFailure := false,
        rewritten := false } ∧
    (relayServeHTTP .closed false ⟨500, true⟩).breakerFailure =
      classifyStatus (if (true : Bool) then 500 else 200) ∧
    (relayServeHTTP .closed false ⟨500, true⟩).rewritten = false :=
  ⟨(relayServeHTTP_spec .stateOpen false ⟨200, false⟩).1 rfl,
   (relayServeHTTP_spec .closed false ⟨500, true⟩).2.1 rfl,
   (relayServeHTTP_spec .closed false ⟨500, true⟩).2.2.2 rfl⟩

/-! ## Transformer path filter — `isPathAllowed` (pkg/middleware/transform.go)

`compilePatterns` turns the configured pattern strings into compiled
regexes; a compiled regex enters the embedding as its matching function
`String → Bool` (`MatchString`). -/

/-- `isPathAllowed`: all paths pass when both lists are empty; any blocked
match rejects; a non-empty allowed list admits only matching paths. -/
def isPathAllowed (path : String) (allowed blocked : List (String → Bool)) : Bool :=
  if allowed.isEmpty && blocked.isEmpty then true
  else if blocked.any (fun p => p path) then false
  else if !allowed.isEmpty then allowed.any (fun p => p path)
  else true

/-- The path-filter step of `TransformMiddleware`: a disallowed path
short-circuits with `http.Error(..., 403)` (`some 403`); `none` means the
request continues down the pipeline. -/
def transformPathGate (path : String) (allowed blocked : List (String → Bool)) :
    Option Nat :=
  if !(isPathAllowed path allowed blocked) then some 403 else none

/-- C9: the transformer rejects with 403 exactly when the path matches some
blocked pattern, or the allowed list is non-empty and the path matches none
of its patterns; with both lists empty every path is admitted. -/
theorem isPathAllowed_spec (path : String) (allowed blocked : List (String → Bool)) :
    (transformPathGate path allowed blocked = some 403 ↔
      (blocked.any (fun p => p path) = true ∨
        (allowed ≠ [] ∧ allowed.any (fun p => p path) = false))) ∧
    (allowed = [] → blocked = [] → transformPathGate path allowed blocked = none) := by
  constructor
  · unfold transformPathGate isPathAllowed
    by_cases hae : allowed.isEmpty <;> by_cases hbe : blocked.isEmpty
    · have ha : allowed = [] := List.isEmpty_iff.mp hae
      have hb : blocked = [] := List.isEmpty_iff.mp hbe
      subst ha; subst hb; simp
    · have ha : allowed = [] := List.isEmpty_iff.mp hae
      subst ha
      by_cases hblk : blocked.any (fun p => p path) = true <;>
        simp_all
    · have hb : blocked = [] := List.isEmpty_iff.mp hbe
      subst hb
      have hane : allowed ≠ [] := fun h => hae (by simp [h])
      by_cases halw : allowed.any (fun p => p path) = true <;>
        simp_all
    · have hane : allowed ≠ [] := fun h => hae (by simp [h])
      by_cases hblk : blocked.any (fun p => p path) = true <;>
        by_cases halw : allowed.any (fun p => p path) = true <;>
        simp_all
  · intro ha hb
    subst ha; subst hb
    simp [transformPathGate, isPathAllowed]

/-- Witness for C9: with `allowed = [contains "/v1/"]` and
`blocked = [contains "/admin"]`, the path "/admin/keys" is rejected and the
path "/v1/chat" is admitted. -/
theorem isPathAllowed_spec_witness :
    transformPathGate "/admin/keys"
        [fun s => decide (s = "/v1/chat")] [fun s => decide (s = "/admin/keys")] =
      some 403 ∧
    transformPathGate "/v1/chat" [] [] = none := by
  constructor
  · exact (isPathAllowed_spec "/admin/keys" [fun s => decide (s = "/v1/chat")]
      [fun s => decide (s = "/admin/keys")]).1.mpr (Or.inl (by simp))
  · exact (isPathAllowed_spec "/v1/chat" [] []).2 rfl rfl

/-! ## Load balancer — `LoadBalancer` (pkg/proxy)

A `Target` carries its URL, weight, atomic `Healthy` flag and per-target
breaker state.  The `lb.latency` map of `LatencyTracker`s is modelled as an
association list from target URL to the sample window (durations in
nanoseconds).  `rand.Intn` results enter as explicit parameters. -/

/-- A load-balancer `Target` (URL, weight, health flag, breaker state). -/
structure LBTarget where
  url : String
  weight : Int
  healthy : Bool
  breaker : BreakerState
deriving DecidableEq

/-- Go map lookup `lb.latency[targetURL]` over the association list. -/
def lookupTracker (lat : List (String × List Nat)) (url : String) :
    Option (List Nat) :=
  match lat with
  | [] => none
  | (k, v) :: rest => if k = url then some v else lookupTracker rest url

/-- `LatencyTracker.Average`: 0 for an empty window, otherwise the integer
mean (Go `time.Duration` division truncates) of the samples. -/
def trackerAverage (samples : List Nat) : Nat :=
  if samples = [] then 0 else samples.foldl (· + ·) 0 / samples.length

/-- `time.Hour` in nanoseconds (initial best-latency bound). -/
def hourNs : Nat := 3600000000000

/-- The 100 ms default of `getAverageLatency`, in nanoseconds. -/
def defaultLatencyNs : Nat := 100000000

/-- `getAverageLatency`: 100 ms when the URL has no tracker in the map,
otherwise the tracker's average. -/
def getAverageLatency (lat : List (String × List Nat)) (url : String) : Nat :=
  match lookupTracker lat url with
  | none => defaultLatencyNs
  | some tr => trackerAverage tr

/-- The loop of `leastLatency`: walk the targets keeping the strictly best
average seen so far (initially `none` at bound `time.Hour`). -/
def leastLatencyGo (lat : List (String × List Nat)) :
    List LBTarget → Option LBTarget → Nat → Option LBTarget
  | [], best, _ => best
  | t :: rest, best, bestLat =>
    if getAverageLatency lat t.url < bestLat then
      leastLatencyGo lat rest (some t) (getAverageLatency lat t.url)
    else
      leastLatencyGo lat rest best bestLat

/-- `LoadBalancer.leastLatency`: the loop's winner, or `targets[0]` when no
average beat the initial 1-hour bound (`none` only on an empty list, where
the Go code would panic on `targets[0]`). -/
def leastLatency (targets : List LBTarget) (lat : List (String × List Nat)) :
    Option LBTarget :=
  match leastLatencyGo lat targets none hourNs with
  | some b => some b
  | none => targets.head?

/-- `LoadBalancer.roundRobin`: `(current.Add(1) - 1) % len`, with `counter`
the pre-increment value of the atomic counter. -/
def roundRobin (targets : List LBTarget) (counter : Nat) : Option LBTarget :=
  targets.get? (counter % targets.length)

/-- The subtraction walk of `LoadBalancer.weighted`. -/
def weightedWalk : List LBTarget → Int → Option LBTarget
  | [], _ => none
  | t :: rest, r =>
    if r - t.weight < 0 then some t else weightedWalk rest (r - t.weight)

/-- `LoadBalancer.weighted`: subtract weights from `rnd = rand.Intn(total)`
until negative; fall back to `targets[0]`. -/
def weighted (targets : List LBTarget) (rnd : Int) : Option LBTarget :=
  match weightedWalk targets rnd with
  | some t => some t
  | none => targets.head?

/-- The filter predicate of `selectTarget`: `t.Healthy.Load() &&
t.CircuitBreaker.State() != gobreaker.StateOpen`. -/
def eligible (t : LBTarget) : Bool :=
  t.healthy && decide (t.breaker ≠ BreakerState.stateOpen)

/-- `LoadBalancer.selectTarget`: filter to eligible targets, error (`none`)
on an empty filtered list, else pick by strategy (unknown strategies fall
back to round-robin; `randIdx` models `rand.Intn(len(healthy))`). -/
def selectTarget (targets : List LBTarget) (strategy : String) (counter : Nat)
    (rnd : Int) (randIdx : Nat) (lat : List (String × List Nat)) :
    Option LBTarget :=
  let healthy := targets.filter eligible
  if healthy.isEmpty then none
  else if strategy = "round-robin" then roundRobin healthy counter
  else if strategy = "weighted" then weighted healthy rnd
  else if strategy = "least-latency" then leastLatency healthy lat
  else if strategy = "random" then healthy.get? randIdx
  else roundRobin healthy counter

/-- Observable outcome of `LoadBalancer.ServeHTTP`: either the 503
"No healthy backends available" short-circuit, or a forward to the selected
target. -/
structure LBResult where
  status : Option Nat
  forwardedTo : Option LBTarget
deriving DecidableEq

/-- `LoadBalancer.ServeHTTP` down to target selection: `selectTarget`
failure → 503 without forwarding; otherwise the request is executed through
the selected target's breaker. -/
def lbServeHTTP (targets : List LBTarget) (strategy : String) (counter : Nat)
    (rnd : Int) (randIdx : Nat) (lat : List (String × List Nat)) : LBResult :=
  match selectTarget targets strategy counter rnd randIdx lat with
  | none => { status := some 503, forwardedTo := none }
  | some t => { status := none, forwardedTo := some t }

/-! ### Membership and minimality lemmas for the strategies -/

theorem weightedWalk_mem (targets : List LBTarget) (r : Int) (t : LBTarget)
    (h : weightedWalk targets r = some t) : t ∈ targets := by
  induction targets generalizing r with
  | nil => simp [weightedWalk] at h
  | cons hd tl ih =>
    unfold weightedWalk at h
    by_cases hc : r - hd.weight < 0
    · rw [if_pos hc] at h
      simp at h
      simp [h]
    · rw [if_neg hc] at h
      exact List.mem_cons_of_mem hd (ih _ h)

theorem weighted_mem (targets : List LBTarget) (r : Int) (t : LBTarget)
    (h : weighted targets r = some t) : t ∈ targets := by
  unfold weighted at h
  cases hw : weightedWalk targets r with
  | none =>
    rw [hw] at h
    exact List.mem_of_mem_head? h
  | some u =>
    rw [hw] at h
    cases h
    exact weightedWalk_mem targets r t hw

/-- Invariant of the `leastLatency` loop: a `some` result is either the
incoming best (with no listed target beating the incoming bound) or a
listed target whose average beats the bound and is minimal over the list. -/
theorem leastLatencyGo_spec (lat : List (String × List Nat))
    (targets : List LBTarget) (best : Option LBTarget) (bestLat : Nat)
    (t : LBTarget) (h : leastLatencyGo lat targets best bestLat = some t) :
    (best = some t ∧ ∀ u ∈ targets, bestLat ≤ getAverageLatency lat u.url) ∨
    (t ∈ targets ∧ getAverageLatency lat t.url < bestLat ∧
      ∀ u ∈ targets, getAverageLatency lat t.url ≤ getAverageLatency lat u.url) := by
  induction targets generalizing best bestLat with
  | nil =>
    left
    exact ⟨h, by simp⟩
  | cons hd tl ih =>
    unfold leastLatencyGo at h
    by_cases hc : getAverageLatency lat hd.url < bestLat
    · rw [if_pos hc] at h
      rcases ih _ _ h with ⟨heq, hall⟩ | ⟨hmem, hlt, hmin⟩
      · cases heq
        right
        refine ⟨List.mem_cons_self _ _, hc, ?_⟩
        intro u hu
        rcases List.mem_cons.mp hu with rfl | hu'
        · exact le_refl _
        · exact hall u hu'
      · right
        refine ⟨List.mem_cons_of_mem hd hmem, lt_trans hlt hc, ?_⟩
        intro u hu
        rcases List.mem_cons.mp hu with rfl | hu'
        · exact le_of_lt hlt
        · exact hmin u hu'
    · rw [if_neg hc] at h
      rcases ih _ _ h with ⟨heq, hall⟩ | ⟨hmem, hlt, hmin⟩
      · left
        refine ⟨heq, ?_⟩
        intro u hu
        rcases List.mem_cons.mp hu with rfl | hu'
        · exact le_of_not_lt hc
        · exact hall u hu'
      · right
        refine ⟨List.mem_cons_of_mem hd hmem, hlt, ?_⟩
        intro u hu
        rcases List.mem_cons.mp hu with rfl | hu'
        · exact le_of_lt (lt_of_lt_of_le hlt (le_of_not_lt hc))
        · exact hmin u hu'

theorem leastLatency_mem (targets : List LBTarget) (lat : List (String × List Nat))
    (t : LBTarget) (h : leastLatency targets lat = some t) : t ∈ targets := by
  unfold leastLatency at h
  cases hg : leastLatencyGo lat targets none hourNs with
  | none =>
    rw [hg] at h
    exact List.mem_of_mem_head? h
  | some u =>
    rw [hg] at h
    cases h
    rcases leastLatencyGo_spec lat targets none hourNs t hg with ⟨heq, _⟩ | ⟨hmem, _, _⟩
    · exact absurd heq (by simp)
    · exact hmem

theorem selectTarget_mem (targets : List LBTarget) (strategy : String)
    (counter : Nat) (rnd : Int) (randIdx : Nat) (lat : List (String × List Nat))
    (t : LBTarget) (h : selectTarget targets strategy counter rnd randIdx lat = some t) :
    t ∈ targets.filter eligible := by
  unfold selectTarget at h
  by_cases he : (targets.filter eligible).isEmpty
  · simp [he] at h
  · rw [if_neg he] at h
    have hrr : ∀ c, roundRobin (targets.filter eligible) c = some t →
        t ∈ targets.filter eligible := by
      intro c hc
      exact List.get?_mem hc
    by_cases h1 : strategy = "round-robin"
    · rw [if_pos h1] at h; exact hrr counter h
    · rw [if_neg h1] at h
      by_cases h2 : strategy = "weighted"
      · rw [if_pos h2] at h; exact weighted_mem _ rnd t h
      · rw [if_neg h2] at h
        by_cases h3 : strategy = "least-latency"
        · rw [if_pos h3] at h; exact leastLatency_mem _ lat t h
        · rw [if_neg h3] at h
          by_cases h4 : strategy = "random"
          · rw [if_pos h4] at h; exact List.get?_mem h
          · rw [if_neg h4] at h; exact hrr counter h

theorem leastLatencyGo_none (lat : List (String × List Nat))
    (targets : List LBTarget) (best : Option LBTarget) (bestLat : Nat)
    (h : leastLatencyGo lat targets best bestLat = none) :
    best = none ∧ ∀ u ∈ targets, bestLat ≤ getAverageLatency lat u.url := by
  induction targets generalizing best bestLat with
  | nil => exact ⟨h, by simp⟩
  | cons hd tl ih =>
    unfold leastLatencyGo at h
    by_cases hc : getAverageLatency lat hd.url < bestLat
    · rw [if_pos hc] at h
      exact absurd (ih _ _ h).1 (by simp)
    · rw [if_neg hc] at h
      obtain ⟨hb, hall⟩ := ih _ _ h
      refine ⟨hb, ?_⟩
      intro u hu
      rcases List.mem_cons.mp hu with rfl | hu'
      · exact le_of_not_lt hc
      · exact hall u hu'

theorem leastLatencyGo_of_all_ge (lat : List (String × List Nat))
    (targets : List LBTarget) (best : Option LBTarget) (bestLat : Nat)
    (h : ∀ u ∈ targets, bestLat ≤ getAverageLatency lat u.url) :
    leastLatencyGo lat targets best bestLat = best := by
  induction targets with
  | nil => rfl
  | cons hd tl ih =>
    unfold leastLatencyGo
    rw [if_neg (not_lt.mpr (h hd (List.mem_cons_self _ _)))]
    exact ih fun u hu => h u (List.mem_cons_of_mem hd hu)

/-! ### Claim C8 -/

/-- C8: the load balancer never forwards to a target that is unhealthy or
whose breaker is OPEN — selection filters to `{healthy ∧ breaker ≠ OPEN}`,
an empty filtered list yields 503 with no forward, and any forwarded target
belongs to the filtered list (hence is healthy with a non-open breaker),
under every strategy and every counter / random draw. -/
theorem lb_selection_health (targets : List LBTarget) (strategy : String)
    (counter : Nat) (rnd : Int) (randIdx : Nat) (lat : List (String × List Nat)) :
    (targets.filter eligible = [] →
      lbServeHTTP targets strategy counter rnd randIdx lat =
        { status := some 503, forwardedTo := none }) ∧
    (∀ t, (lbServeHTTP targets strategy counter rnd randIdx lat).forwardedTo = some t →
      t.healthy = true ∧ t.breaker ≠ BreakerState.stateOpen ∧ t ∈ targets) := by
  constructor
  · intro hemp
    unfold lbServeHTTP selectTarget
    simp [hemp]
  · intro t ht
    unfold lbServeHTTP at ht
    cases hsel : selectTarget targets strategy counter rnd randIdx lat with
    | none => rw [hsel] at ht; simp at ht
    | some u =>
      rw [hsel] at ht
      have hut : u = t := by simpa using ht
      subst hut
      have hmem := selectTarget_mem targets strategy counter rnd randIdx lat u hsel
      have hmem' := List.mem_filter.mp hmem
      have helig : u.healthy = true ∧
          decide (u.breaker ≠ BreakerState.stateOpen) = true := by
        simpa [eligible] using hmem'.2
      exact ⟨helig.1, of_decide_eq_true helig.2, hmem'.1⟩

/-- Witness for C8: a lone unhealthy target yields the 503 short-circuit;
a lone healthy target is forwarded to and satisfies the health predicate. -/
theorem lb_selection_health_witness :
    lbServeHTTP [⟨"a", 1, false, .closed⟩] "round-robin" 0 0 0 [] =
      { status := some 503, forwardedTo := none } ∧
    ((⟨"b", 1, true, .closed⟩ : LBTarget).healthy = true ∧
     (⟨"b", 1, true, .closed⟩ : LBTarget).breaker ≠ BreakerState.stateOpen ∧
     (⟨"b", 1, true, .closed⟩ : LBTarget) ∈ [(⟨"b", 1, true, .closed⟩ : LBTarget)]) :=
  ⟨(lb_selection_health [⟨"a", 1, false, .closed⟩] "round-robin" 0 0 0 []).1 (by decide),
   (lb_selection_health [⟨"b", 1, true, .closed⟩] "round-robin" 0 0 0 []).2
     ⟨"b", 1, true, .closed⟩ (by decide)⟩

/-! ### Claim C3 -/

/-- The average the claim's words assign to a target: the window mean, with
the 100 ms default whenever the window holds zero samples (also when the
target has no tracker).  This follows the spec, not the code, and is
compared against the code's `getAverageLatency`. -/
def specClaimedAverage (lat : List (String × List Nat)) (url : String) : Nat :=
  match lookupTracker lat url with
  | none => defaultLatencyNs
  | some tr => if tr = [] then defaultLatencyNs else trackerAverage tr

/-- C3 counterexample: target "a" has one 50 ms sample and target "b" an
empty window.  The code's `Average` of an empty window is 0 (the 100 ms
default applies only to URLs absent from the tracker map), so `leastLatency`
selects "b"; under the claim's averages ("b" ↦ 100 ms) the unique minimum is
"a" (50 ms), so the selected target does not minimise the claimed average. -/
theorem leastLatency_zero_sample_counterexample :
    leastLatency [⟨"a", 1, true, .closed⟩, ⟨"b", 1, true, .closed⟩]
        [("a", [50000000]), ("b", [])] = some ⟨"b", 1, true, .closed⟩ ∧
    trackerAverage [] = 0 ∧
    specClaimedAverage [("a", [50000000]), ("b", [])] "a" <
      specClaimedAverage [("a", [50000000]), ("b", [])] "b" := by
  refine ⟨by decide, rfl, by decide⟩

/-- C3 amended: under least-latency the selected target minimises the
code's per-target average, where an existing tracker with zero samples has
average 0 and the 100 ms default applies only to targets without a tracker;
the minimisation holds whenever some target's average beats the initial
1-hour bound, and otherwise the first target is selected. -/
theorem leastLatency_amended (targets : List LBTarget)
    (lat : List (String × List Nat)) :
    trackerAverage [] = 0 ∧
    (∀ url, lookupTracker lat url = none →
      getAverageLatency lat url = defaultLatencyNs) ∧
    ((∃ u ∈ targets, getAverageLatency lat u.url < hourNs) →
      ∃ t, leastLatency targets lat = some t ∧ t ∈ targets ∧
        ∀ u ∈ targets, getAverageLatency lat t.url ≤ getAverageLatency lat u.url) ∧
    ((∀ u ∈ targets, hourNs ≤ getAverageLatency lat u.url) →
      leastLatency targets lat = targets.head?) := by
  refine ⟨rfl, ?_, ?_, ?_⟩
  · intro url hurl
    unfold getAverageLatency
    rw [hurl]
  · rintro ⟨u, hu, hult⟩
    cases hg : leastLatencyGo lat targets none hourNs with
    | none =>
      have := (leastLatencyGo_none lat targets none hourNs hg).2 u hu
      omega
    | some t =>
      refine ⟨t, ?_, ?_, ?_⟩
      · unfold leastLatency; rw [hg]
      · rcases leastLatencyGo_spec lat targets none hourNs t hg with
          ⟨heq, _⟩ | ⟨hmem, _, _⟩
        · exact absurd heq (by simp)
        · exact hmem
      · rcases leastLatencyGo_spec lat targets none hourNs t hg with
          ⟨heq, _⟩ | ⟨_, _, hmin⟩
        · exact absurd heq (by simp)
        · exact hmin
  · intro hall
    unfold leastLatency
    rw [leastLatencyGo_of_all_ge lat targets none hourNs hall]

/-- Witness for C3's amended theorem at the two-target configuration of the
counterexample input. -/
theorem leastLatency_amended_witness :
    ∃ t, leastLatency [⟨"a", 1, true, .closed⟩, ⟨"b", 1, true, .closed⟩]
        [("a", [50000000]), ("b", [])] = some t ∧
      t ∈ [(⟨"a", 1, true, .closed⟩ : LBTarget), ⟨"b", 1, true, .closed⟩] ∧
      ∀ u ∈ [(⟨"a", 1, true, .closed⟩ : LBTarget), ⟨"b", 1, true, .closed⟩],
        getAverageLatency [("a", [50000000]), ("b", [])] t.url ≤
          getAverageLatency [("a", [50000000]), ("b", [])] u.url :=
  (leastLatency_amended _ _).2.2.1
    ⟨⟨"b", 1, true, .closed⟩, by simp, by decide⟩

/-! ## SHA-256 (Go `crypto/sha256`, as used by the caching layer)

Bytes are `Nat`s below 256; 32-bit words are `Nat`s reduced mod `2^32`. -/

/-- `2^32`. -/
def w32 : Nat := 4294967296

/-- 32-bit wrapping addition. -/
def add32 (a b : Nat) : Nat := (a + b) % w32

/-- 32-bit right rotation. -/
def rotr32 (n x : Nat) : Nat := ((x >>> n) ||| (x <<< (32 - n))) % w32

/-- Three-way xor. -/
def xor3 (a b c : Nat) : Nat := (a ^^^ b) ^^^ c

def smallSigma0 (x : Nat) : Nat := xor3 (rotr32 7 x) (rotr32 18 x) (x >>> 3)

def smallSigma1 (x : Nat) : Nat := xor3 (rotr32 17 x) (rotr32 19 x) (x >>> 10)

def bigSigma0 (x : Nat) : Nat := xor3 (rotr32 2 x) (rotr32 13 x) (rotr32 22 x)

def bigSigma1 (x : Nat) : Nat := xor3 (rotr32 6 x) (rotr32 11 x) (rotr32 25 x)

/-- SHA-256 choice function (`¬x` as xor against the 32-bit mask). -/
def chFn (x y z : Nat) : Nat := (x &&& y) ^^^ ((x ^^^ (w32 - 1)) &&& z)

/-- SHA-256 majority function. -/
def majFn (x y z : Nat) : Nat := xor3 (x &&& y) (x &&& z) (y &&& z)

/-- The 64 SHA-256 round constants (FIPS 180-4, in decimal). -/
def shaK : List Nat :=
  [1116352408, 1899447441, 3049323471, 3921009573, 961987163,
   1508970993, 2453635748, 2870763221, 3624381080, 310598401,
   607225278, 1426881987, 1925078388, 2162078206, 2614888103,
   3248222580, 3835390401, 4022224774, 264347078, 604807628,
   770255983, 1249150122, 1555081692, 1996064986, 2554220882,
   2821834349, 2952996808, 3210313671, 3336571891, 3584528711,
   113926993, 338241895, 666307205, 773529912, 1294757372,
   1396182291, 1695183700, 1986661051, 2177026350, 2456956037,
   2730485921, 2820302411, 3259730800, 3345764771, 3516065817,
   3600352804, 4094571909, 275423344, 430227734, 506948616,
   659060556, 883997877, 958139571, 1322822218, 1537002063,
   1747873779, 1955562222, 2024104815, 2227730452, 2361852424,
   2428436474, 2756734187, 3204031479, 3329325298]

/-- The initial SHA-256 hash value (FIPS 180-4, in decimal). -/
def shaH0 : List Nat :=
  [1779033703, 3144134277, 1013904242, 2773480762,
   1359893119, 2600822924, 528734635, 1541459225]

/-- The eight working variables of the compression function. -/
structure Sha256State where
  a : Nat
  b : Nat
  c : Nat
  d : Nat
  e : Nat
  f : Nat
  g : Nat
  h : Nat

/-- One compression round for the pair (round constant, schedule word). -/
def shaRound (st : Sha256State) (kw : Nat × Nat) : Sha256State :=
  let t1 := add32 (add32 (add32 st.h (bigSigma1 st.e))
    (add32 (chFn st.e st.f st.g) kw.1)) kw.2
  let t2 := add32 (bigSigma0 st.a) (majFn st.a st.b st.c)
  { a := add32 t1 t2, b := st.a, c := st.b, d := st.c,
    e := add32 st.d t1, f := st.e, g := st.f, h := st.g }

/-- Big-endian 32-bit words from bytes. -/
def toWords : List Nat → List Nat
  | b0 :: b1 :: b2 :: b3 :: rest =>
    (((b0 <<< 24) ||| (b1 <<< 16)) ||| ((b2 <<< 8) ||| b3)) :: toWords rest
  | _ => []

/-- Extend the 16 block words by `n` more schedule words. -/
def extendSchedule : List Nat → Nat → List Nat
  | ws, 0 => ws
  | ws, n+1 =>
    let t := ws.length
    let nw := add32 (add32 (ws.getD (t-16) 0) (smallSigma0 (ws.getD (t-15) 0)))
                    (add32 (ws.getD (t-7) 0) (smallSigma1 (ws.getD (t-2) 0)))
    extendSchedule (ws ++ [nw]) n

/-- Compress one 64-byte block into the running hash (a list of 8 words). -/
def processBlock (hs : List Nat) (block : List Nat) : List Nat :=
  let ws := extendSchedule (toWords block) 48
  let st0 : Sha256State :=
    { a := hs.getD 0 0, b := hs.getD 1 0, c := hs.getD 2 0, d := hs.getD 3 0,
      e := hs.getD 4 0, f := hs.getD 5 0, g := hs.getD 6 0, h := hs.getD 7 0 }
  let fin := (shaK.zip ws).foldl shaRound st0
  [add32 (hs.getD 0 0) fin.a, add32 (hs.getD 1 0) fin.b,
   add32 (hs.getD 2 0) fin.c, add32 (hs.getD 3 0) fin.d,
   add32 (hs.getD 4 0) fin.e, add32 (hs.getD 5 0) fin.f,
   add32 (hs.getD 6 0) fin.g, add32 (hs.getD 7 0) fin.h]

/-- The message length in bits as 8 big-endian bytes. -/
def lenBytes8 (n : Nat) : List Nat :=
  [(n >>> 56) % 256, (n >>> 48) % 256, (n >>> 40) % 256, (n >>> 32) % 256,
   (n >>> 24) % 256, (n >>> 16) % 256, (n >>> 8) % 256, n % 256]

/-- SHA-256 padding: a 0x80 byte, zeros to 56 mod 64, the bit length. -/
def padMessage (msg : List Nat) : List Nat :=
  msg ++ 0x80 :: (List.replicate ((119 - (msg.length % 64)) % 64) 0
    ++ lenBytes8 (msg.length * 8))

/-- Split a byte list into 64-byte blocks (`fuel ≥ bs.length` suffices; the
fuel only bounds the recursion depth). -/
def toBlocksFuel : Nat → List Nat → List (List Nat)
  | 0, _ => []
  | _, [] => []
  | fuel+1, bs => bs.take 64 :: toBlocksFuel fuel (bs.drop 64)

/-- Split the padded message into 64-byte blocks. -/
def toBlocks (bs : List Nat) : List (List Nat) := toBlocksFuel bs.length bs

/-- A 32-bit word as 4 big-endian bytes. -/
def wordBytes (w : Nat) : List Nat :=
  [(w >>> 24) % 256, (w >>> 16) % 256, (w >>> 8) % 256, w % 256]

/-- `sha256.Sum256`: the 32-byte SHA-256 digest of a byte list. -/
def sha256 (msg : List Nat) : List Nat :=
  ((toBlocks (padMessage msg)).foldl processBlock shaH0).foldr
    (fun w acc => wordBytes w ++ acc) []

/-- One lower-case hex digit. -/
def hexDigit (n : Nat) : Char :=
  if n < 10 then Char.ofNat (48 + n) else Char.ofNat (87 + n)

/-- `hex.EncodeToString` over a byte list. -/
def hexEncode (bs : List Nat) : String :=
  String.mk (bs.foldr (fun b acc => hexDigit (b / 16) :: hexDigit (b % 16) :: acc) [])

/-! ## Caching middleware — `CachingMiddleware` (pkg/middleware/caching.go)

The inner handler's effect on the `responseWrapper` spy is a list of write
events; the Redis store enters as a lookup function (`none` covers
`redis: nil`, a deadline expiry, and connection errors — all of which take
the miss path). -/

/-- One call the inner handler makes on the response writer. -/
inductive WriteEvent where
  | writeHeader (code : Nat)
  | write (bytes : List Nat)
deriving DecidableEq

/-- `responseWrapper` state: captured status (0 = none yet) and teed body. -/
structure SpyState where
  statusCode : Nat
  body : List Nat
deriving DecidableEq

/-- `WriteHeader` records the code; `Write` backfills 200 when no header was
sent and appends the bytes to the capture buffer. -/
def spyApply : SpyState → WriteEvent → SpyState
  | s, .writeHeader code => { s with statusCode := code }
  | s, .write bs =>
    { statusCode := if s.statusCode = 0 then 200 else s.statusCode,
      body := s.body ++ bs }

/-- The spy state after the inner handler ran. -/
def runSpy (evs : List WriteEvent) : SpyState := evs.foldl spyApply ⟨0, []⟩

/-- The cache key computed by `CachingMiddleware`:
`fmt.Sprintf("cache:%s", hex.EncodeToString(hash[:]))` for
`hash := sha256.Sum256(bodyBytes)`. -/
def cacheKey (body : List Nat) : String := "cache:" ++ hexEncode (sha256 body)

/-- Observable outcome of one `CachingMiddleware` request: whether the
stored bytes were served (HIT path), the status the client saw (`none` when
the middleware passed a non-POST request straight through), and the
asynchronous store write, if any, as (key, bytes, TTL seconds). -/
structure CacheOutcome where
  servedFromCache : Bool
  responseStatus : Option Nat
  cacheWrite : Option (String × List Nat × Nat)
deriving DecidableEq

/-- `CachingMiddleware`: non-POST requests bypass the middleware entirely;
a store hit serves the stored bytes with status 200 (`X-Cache: HIT`); on a
miss the inner handler runs under the spy and the captured bytes are
written (TTL `time.Hour` = 3600 s) exactly when the final status is 200. -/
def cachingMiddleware (store : String → Option (List Nat)) (method : String)
    (body : List Nat) (inner : List WriteEvent) : CacheOutcome :=
  if method ≠ "POST" then
    { servedFromCache := false, responseStatus := none, cacheWrite := none }
  else
    match store (cacheKey body) with
    | some _ =>
      { servedFromCache := true, responseStatus := some 200, cacheWrite := none }
    | none =>
      { servedFromCache := false, responseStatus := some (runSpy inner).statusCode,
        cacheWrite := if (runSpy inner).statusCode = 200
          then some (cacheKey body, (runSpy inner).body, 3600) else none }

/-! ### Claim C4 -/

set_option maxRecDepth 10000

/-- C4 counterexample: the claim states the write key is
`hex(SHA-256(body))`; the code prefixes it with `"cache:"`.  For the empty
POST body on a miss with an inner 200, the write happens under
`cache:e3b0c442…` and not under the bare digest `e3b0c442…`. -/
theorem cache_key_prefix_counterexample :
    (cachingMiddleware (fun _ => none) "POST" []
        [.writeHeader 200, .write [1, 2, 3]]).cacheWrite =
      some (cacheKey [], [1, 2, 3], 3600) ∧
    cacheKey [] =
      "cache:e3b0c44298fc1c149afbf4c8996fb92427ae41e4649b934ca495991b7852b855" ∧
    hexEncode (sha256 []) =
      "e3b0c44298fc1c149afbf4c8996fb92427ae41e4649b934ca495991b7852b855" ∧
    cacheKey [] ≠ hexEncode (sha256 []) := by
  refine ⟨rfl, by decide, by decide, by decide⟩

/-- C4 amended: a cache write occurs exactly for POST requests that miss
the store and whose final captured status is 200, and the write stores the
captured bytes under `"cache:" ++ hex(SHA-256(request body))` with a TTL of
one hour; no non-POST request and no non-200 response ever produces a
write. -/
theorem cache_write_spec (store : String → Option (List Nat)) (method : String)
    (body : List Nat) (inner : List WriteEvent) :
    (∀ k data ttl,
      (cachingMiddleware store method body inner).cacheWrite = some (k, data, ttl) →
      method = "POST" ∧ store (cacheKey body) = none ∧
      (runSpy inner).statusCode = 200 ∧
      k = "cache:" ++ hexEncode (sha256 body) ∧
      data = (runSpy inner).body ∧ ttl = 3600) ∧
    (method = "POST" → store (cacheKey body) = none →
      (runSpy inner).statusCode = 200 →
      (cachingMiddleware store method body inner).cacheWrite =
        some (cacheKey body, (runSpy inner).body, 3600)) := by
  constructor
  · intro k data ttl h
    unfold cachingMiddleware at h
    by_cases hm : method = "POST"
    · rw [if_neg (fun hc => hc hm)] at h
      cases hst : store (cacheKey body) with
      | some v => rw [hst] at h; exact absurd h (by simp)
      | none =>
        rw [hst] at h
        simp only at h
        by_cases hsc : (runSpy inner).statusCode = 200
        · rw [if_pos hsc, Option.some.injEq, Prod.mk.injEq, Prod.mk.injEq] at h
          exact ⟨hm, rfl, hsc, h.1.symm, h.2.1.symm, h.2.2.symm⟩
        · rw [if_neg hsc] at h
          exact absurd h (by simp)
    · rw [if_pos hm] at h
      exact absurd h (by simp)
  · intro hm hst hsc
    unfold cachingMiddleware
    rw [if_neg (fun hc => hc hm), hst]
    simp [hsc]

/-- Witness for C4's amended theorem: empty body, miss, inner 200. -/
theorem cache_write_spec_witness :
    (cachingMiddleware (fun _ => none) "POST" []
        [.writeHeader 200, .write [9]]).cacheWrite =
      some (cacheKey [], (runSpy [.writeHeader 200, .write [9]]).body, 3600) :=
  (cache_write_spec (fun _ => none) "POST" [] [.writeHeader 200, .write [9]]).2
    rfl rfl rfl

/-! ### Claim C5 -/

/-- The live configuration snapshot as caching could observe it (the
`redis.enabled` flag is the only cache-related toggle in `config.Config`). -/
structure LiveSnapshot where
  redisEnabled : Bool
deriving DecidableEq

/-- The caching slice of the pipeline as `cmd/main.go` builds it: the layer
is installed at startup iff Redis was enabled in the startup snapshot
(`cfg.Redis.Enabled && rdb != nil`); `CachingMiddleware` itself receives
only the Redis client and never reads the configuration store, so the live
snapshot `_live` cannot influence it. -/
def relayPipelineCaching (startupRedisEnabled : Bool) (_live : LiveSnapshot)
    (store : String → Option (List Nat)) (method : String) (body : List Nat)
    (inner : List WriteEvent) : CacheOutcome :=
  if startupRedisEnabled then cachingMiddleware store method body inner
  else { servedFromCache := false, responseStatus := none, cacheWrite := none }

/-- C5 counterexample: with the caching layer installed at startup and a
live snapshot with caching (Redis) disabled, a POST whose key is stored is
still served from the cache, and a missed POST with a 200 response is still
captured for a cache write — the live flag is not honored. -/
theorem cache_snapshot_counterexample :
    (relayPipelineCaching true ⟨false⟩ (fun _ => some [42]) "POST" []
        []).servedFromCache = true ∧
    (relayPipelineCaching true ⟨false⟩ (fun _ => none) "POST" []
        [.writeHeader 200, .write [7]]).cacheWrite =
      some (cacheKey [], [7], 3600) :=
  ⟨rfl, rfl⟩

/-- C5 amended: whether caching happens is fixed at startup — the caching
layer's behavior is identical under any two live snapshots; when Redis was
disabled at startup there is no caching layer at all (no serve, no
capture), and when it was enabled the layer behaves as `CachingMiddleware`
regardless of the live snapshot. -/
theorem cache_ignores_live_snapshot (startup : Bool) (l1 l2 : LiveSnapshot)
    (store : String → Option (List Nat)) (method : String) (body : List Nat)
    (inner : List WriteEvent) :
    relayPipelineCaching startup l1 store method body inner =
      relayPipelineCaching startup l2 store method body inner ∧
    (startup = false →
      relayPipelineCaching startup l1 store method body inner =
        { servedFromCache := false, responseStatus := none, cacheWrite := none }) ∧
    (startup = true →
      relayPipelineCaching startup l1 store method body inner =
        cachingMiddleware store method body inner) := by
  refine ⟨rfl, ?_, ?_⟩ <;> intro h <;> simp [relayPipelineCaching, h]

/-- Witness for C5's amended theorem. -/
theorem cache_ignores_live_snapshot_witness :
    relayPipelineCaching false ⟨true⟩ (fun _ => some [1]) "POST" [] [] =
      { servedFromCache := false, responseStatus := none, cacheWrite := none } ∧
    relayPipelineCaching true ⟨false⟩ (fun _ => some [1]) "POST" [] [] =
      cachingMiddleware (fun _ => some [1]) "POST" [] [] :=
  ⟨(cache_ignores_live_snapshot false ⟨true⟩ ⟨true⟩ (fun _ => some [1]) "POST" []
      []).2.1 rfl,
   (cache_ignores_live_snapshot true ⟨false⟩ ⟨false⟩ (fun _ => some [1]) "POST" []
      []).2.2 rfl⟩

/-! ## Sensitive-data masking — `maskSensitiveFields` / `maskRecursive`
(pkg/middleware/transform.go)

A decoded JSON value (`encoding/json` into `interface{}`); compiled regexes
appear through their `MatchString` functions, implemented below as direct
translations of the five patterns of `maskSensitiveFields`. -/

/-- A parsed JSON value. -/
inductive Json where
  | null
  | bool (b : Bool)
  | num (q : ℚ)
  | str (s : String)
  | arr (elems : List Json)
  | obj (fields : List (String × Json))

/-- ASCII word character, `\w` in RE2: letters, digits, underscore. -/
def isWordChar (c : Char) : Bool := c.isAlpha || c.isDigit || c == '_'

/-- Character class `[a-zA-Z0-9._%+-]` (email local part). -/
def isLocalChar (c : Char) : Bool :=
  c.isAlpha || c.isDigit || c == '.' || c == '_' || c == '%' || c == '+' || c == '-'

/-- Character class `[a-zA-Z0-9.-]` (email domain). -/
def isDomainChar (c : Char) : Bool := c.isAlpha || c.isDigit || c == '.' || c == '-'

/-- Match `\.[a-zA-Z]{2,}` at the head: a dot then at least two letters. -/
def dotAlphaAlpha : List Char → Bool
  | '.' :: a :: b :: _ => a.isAlpha && b.isAlpha
  | _ => false

/-- After one domain character: match `[a-zA-Z0-9.-]*\.[a-zA-Z]{2,}`. -/
def domainDotAlpha : List Char → Bool
  | [] => false
  | c :: rest => dotAlphaAlpha (c :: rest) || (isDomainChar c && domainDotAlpha rest)

/-- Match `[a-zA-Z0-9.-]+\.[a-zA-Z]{2,}` at the head. -/
def atDomain : List Char → Bool
  | [] => false
  | c :: rest => isDomainChar c && domainDotAlpha rest

/-- After ≥ 1 local character: match `[a-zA-Z0-9._%+-]*@` then the domain. -/
def localThenAt : List Char → Bool
  | [] => false
  | c :: rest => (c == '@' && atDomain rest) || (isLocalChar c && localThenAt rest)

/-- A match of the email pattern
`[a-zA-Z0-9._%+-]+@[a-zA-Z0-9.-]+\.[a-zA-Z]{2,}` exists in the string. -/
def emailSearch : List Char → Bool
  | [] => false
  | c :: rest => (isLocalChar c && localThenAt rest) || emailSearch rest

/-- `MatchString` of the `email` pattern. -/
def emailMatches (s : String) : Bool := emailSearch s.data

/-- Consume exactly `n` digits. -/
def digitsN : Nat → List Char → Option (List Char)
  | 0, cs => some cs
  | _+1, [] => none
  | n+1, c :: cs => if c.isDigit then digitsN n cs else none

/-- `\b` after a digit-final match: end of string or a non-word character
next. -/
def boundaryAfterDigit : List Char → Bool
  | [] => true
  | c :: _ => !(isWordChar c)

/-- Both continuations of an optional one-character separator class. -/
def optSep (seps : List Char) : List Char → List (List Char)
  | [] => [[]]
  | c :: cs => if seps.contains c then [cs, c :: cs] else [c :: cs]

/-- Match `\d{3}[-.]?\d{3}[-.]?\d{4}\b` at the head. -/
def phoneAt (cs : List Char) : Bool :=
  match digitsN 3 cs with
  | none => false
  | some r1 =>
    (optSep ['-', '.'] r1).any fun r2 =>
      match digitsN 3 r2 with
      | none => false
      | some r3 =>
        (optSep ['-', '.'] r3).any fun r4 =>
          match digitsN 4 r4 with
          | none => false
          | some r5 => boundaryAfterDigit r5

/-- Scan for a digit-initial pattern with a leading `\b` (a digit is a word
character, so the boundary holds exactly when the previous character is not
one): try `tryAt` at every such position. -/
def scanDigitBounded (tryAt : List Char → Bool) : Bool → List Char → Bool
  | _, [] => false
  | prevWord, c :: rest =>
    (!prevWord && tryAt (c :: rest)) || scanDigitBounded tryAt (isWordChar c) rest

/-- `MatchString` of the `phone` pattern. -/
def phoneMatches (s : String) : Bool := scanDigitBounded phoneAt false s.data

/-- Match `\d{3}-\d{2}-\d{4}\b` at the head. -/
def ssnAt (cs : List Char) : Bool :=
  match digitsN 3 cs with
  | some ('-' :: r1) =>
    (match digitsN 2 r1 with
     | some ('-' :: r2) =>
       (match digitsN 4 r2 with
        | some r3 => boundaryAfterDigit r3
        | _ => false)
     | _ => false)
  | _ => false

/-- `MatchString` of the `ssn` pattern. -/
def ssnMatches (s : String) : Bool := scanDigitBounded ssnAt false s.data

/-- RE2 `\s`: `[\t\n\f\r ]`. -/
def re2Space : List Char := [' ', '\t', '\n', '\r', Char.ofNat 12]

/-- Match `\d{4}[-\s]?\d{4}[-\s]?\d{4}[-\s]?\d{4}\b` at the head. -/
def ccAt (cs : List Char) : Bool :=
  match digitsN 4 cs with
  | none => false
  | some r1 =>
    (optSep ('-' :: re2Space) r1).any fun r2 =>
      match digitsN 4 r2 with
      | none => false
      | some r3 =>
        (optSep ('-' :: re2Space) r3).any fun r4 =>
          match digitsN 4 r4 with
          | none => false
          | some r5 =>
            (optSep ('-' :: re2Space) r5).any fun r6 =>
              match digitsN 4 r6 with
              | none => false
              | some r7 => boundaryAfterDigit r7

/-- `MatchString` of the `credit_card` pattern. -/
def ccMatches (s : String) : Bool := scanDigitBounded ccAt false s.data

/-- Character class `[a-zA-Z0-9_-]` (API-key run). -/
def isKeyChar (c : Char) : Bool := c.isAlpha || c.isDigit || c == '_' || c == '-'

/-- Having consumed `count` key characters, the last with word-ness
`lastWord`: the `{32,}` run can end here with a trailing `\b`, or extend. -/
def keyRunFrom : Nat → Bool → List Char → Bool
  | count, lastWord, [] => 32 ≤ count && lastWord
  | count, lastWord, c :: rest =>
    (32 ≤ count && (lastWord != isWordChar c)) ||
    (isKeyChar c && keyRunFrom (count + 1) (isWordChar c) rest)

/-- Match `[a-zA-Z0-9_-]{32,}\b` at the head, with a leading `\b` relative
to the previous character's word-ness. -/
def keyAt (prevWord : Bool) : List Char → Bool
  | [] => false
  | c :: rest =>
    isKeyChar c && (prevWord != isWordChar c) && keyRunFrom 1 (isWordChar c) rest

/-- Scan all start positions for the API-key pattern. -/
def scanKey : Bool → List Char → Bool
  | _, [] => false
  | prevWord, c :: rest => keyAt prevWord (c :: rest) || scanKey (isWordChar c) rest

/-- `MatchString` of the `api_key` pattern `\b[a-zA-Z0-9_-]{32,}\b`. -/
def apiKeyMatches (s : String) : Bool := scanKey false s.data

/-- The five compiled patterns of `maskSensitiveFields`, as matchers. -/
def sensitivePatterns : List (String → Bool) :=
  [emailMatches, phoneMatches, ssnMatches, ccMatches, apiKeyMatches]

/-- `needle` occurs at the head of the list. -/
def listStartsWith : List Char → List Char → Bool
  | _, [] => true
  | [], _ :: _ => false
  | c :: cs, d :: ds => c == d && listStartsWith cs ds

/-- `strings.Contains` over char lists. -/
def listHasSub (needle : List Char) : List Char → Bool
  | [] => needle.isEmpty
  | c :: rest => listStartsWith (c :: rest) needle || listHasSub needle rest

/-- `strings.Contains hay sub`. -/
def strHasSub (hay sub : String) : Bool := listHasSub sub.data hay.data

/-- `strings.ToLower` (ASCII range; JSON keys in the masking rules are
ASCII). -/
def strToLower (s : String) : String := String.mk (s.data.map Char.toLower)

/-- The sensitive-key test of `maskRecursive`: the lowercased key contains
`password`, `secret`, `token` or `key`. -/
def isSensitiveKey (k : String) : Bool :=
  strHasSub (strToLower k) "password" || strHasSub (strToLower k) "secret" ||
  strHasSub (strToLower k) "token" || strHasSub (strToLower k) "key"

mutual

/-- `maskRecursive`: objects replace values under sensitive keys with
`"***MASKED***"` (no recursion into that subtree) and recurse elsewhere;
arrays recurse into elements.  For a string leaf the Go code computes
`pattern.ReplaceAllString(v, "***MASKED***")` but assigns the result to its
own local parameter `data` — the enclosing container is never updated, so a
string leaf comes back unchanged no matter what the patterns match (the
code's comment "This modifies by reference, so it works" is wrong: Go
strings are values and the assignment is to a local). -/
def maskRecursive (patterns : List (String → Bool)) : Json → Json
  | .obj fields => .obj (maskFields patterns fields)
  | .arr elems => .arr (maskElems patterns elems)
  | .str s => .str s
  | j => j
termination_by structural j => j

/-- The object loop of `maskRecursive`. -/
def maskFields (patterns : List (String → Bool)) :
    List (String × Json) → List (String × Json)
  | [] => []
  | (k, v) :: rest =>
    (if isSensitiveKey k then (k, Json.str "***MASKED***")
     else (k, maskRecursive patterns v)) :: maskFields patterns rest
termination_by structural l => l

/-- The slice loop of `maskRecursive`. -/
def maskElems (patterns : List (String → Bool)) : List Json → List Json
  | [] => []
  | j :: rest => maskRecursive patterns j :: maskElems patterns rest
termination_by structural l => l

end

/-- `maskSensitiveFields`: compile the five sensitive patterns and run
`maskRecursive` with them. -/
def maskSensitiveFields (j : Json) : Json := maskRecursive sensitivePatterns j

/-! ### Claim C1 -/

/-- C1 (the claim is right, the code is wrong): the string
`"user@example.com"` under the non-sensitive key `"message"` matches the
email pattern, so after masking the claim requires the value to no longer
contain that substring; yet `maskSensitiveFields` returns the object
unchanged, because `maskRecursive`'s regex replacement is assigned to a
local variable and discarded — contradicting the code's own comment.  The
final conjunct shows key-based masking does fire (so the embedding is not
degenerate). -/
theorem mask_sensitive_email_unmasked :
    maskSensitiveFields (Json.obj [("message", Json.str "user@example.com")]) =
      Json.obj [("message", Json.str "user@example.com")] ∧
    emailMatches "user@example.com" = true ∧
    isSensitiveKey "message" = false ∧
    ("user@example.com" : String) ≠ "***MASKED***" ∧
    maskSensitiveFields (Json.obj [("api_key", Json.str "sk_live_abc")]) =
      Json.obj [("api_key", Json.str "***MASKED***")] := by
  exact ⟨rfl, by decide, by decide, by decide, rfl⟩

end Relay
